import Mathlib

/-!
# Verification of the cr30reader measurement pipeline

Shallow embedding of the CR30 spectrophotometer driver:

* `src/cr30reader/protocol/packets.py` — the 60-byte frame codec
  (`CR30Packet`, `PacketBuilder`, `PacketParser`),
* `src/cr30reader/protocol/device.py` — the transport receive loop,
* `src/cr30reader/protocol/protocol.py` — measurement chunk reassembly,
* `src/cr30reader/color_science/color_science.py` — the colorimetric engine.

Frames are modelled as `List Nat` of byte values (Python `bytearray`);
mutation of packet state is modelled by explicit state passing.  Python
floating point arithmetic is modelled over `ℝ` (exact matrices over `ℚ`
where the source constants are decimal literals).
-/

namespace CR30

/-! ## Frame codec (packets.py, class CR30Packet) -/

/-- Python equal-length slice assignment `d[i : i + v.length] = v` on a
bytearray. -/
def setSlice (d : List Nat) (i : Nat) (v : List Nat) : List Nat :=
  d.take i ++ v ++ d.drop (i + v.length)

/-- `CR30Packet()` with no data: `bytearray(60)` with default marker
`data[58] = 0xFF`. -/
def emptyPacket : List Nat := (List.replicate 60 0).set 58 0xFF

/-- `CR30Packet.start` getter (byte 0). -/
def startByte (d : List Nat) : Nat := d.getD 0 0

/-- `CR30Packet.marker` getter (byte 58). -/
def marker (d : List Nat) : Nat := d.getD 58 0

/-- `CR30Packet.start` setter: writes byte 0, then fixes the marker byte:
`0xFF` for `0xAA` frames, and for `0xBB` frames resets it to `0xFF` only
when it is not already `0x00`/`0xFF`.  (Values outside {0xAA, 0xBB} raise
`ValueError` in Python; theorems only apply this to those two values.) -/
def setStart (d : List Nat) (v : Nat) : List Nat :=
  let d := d.set 0 v
  if v = 0xAA then d.set 58 0xFF
  else if marker d = 0x00 ∨ marker d = 0xFF then d
  else d.set 58 0xFF

/-- `CR30Packet.cmd` setter (`value & 0xFF`). -/
def setCmd (d : List Nat) (v : Nat) : List Nat := d.set 1 (v % 256)

/-- `CR30Packet.subcmd` setter (`value & 0xFF`). -/
def setSubcmd (d : List Nat) (v : Nat) : List Nat := d.set 2 (v % 256)

/-- `CR30Packet.param` setter (`value & 0xFF`). -/
def setParam (d : List Nat) (v : Nat) : List Nat := d.set 3 (v % 256)

/-- `CR30Packet.payload` setter: clears bytes 4..55 to zero, then writes
`v` starting at byte 4.  (Python raises `ValueError` for `v.length > 52`;
theorems carry that bound as a hypothesis.) -/
def setPayload (d : List Nat) (v : List Nat) : List Nat :=
  setSlice (setSlice d 4 (List.replicate 52 0)) 4 v

/-- `CR30Packet.payload` getter: bytes 4..55 (52 bytes). -/
def payload (d : List Nat) : List Nat := (d.drop 4).take 52

/-- The checksum value computed by `calculate_checksum`:
`sum(self._data[:58]) % 256`, and `(checksum - 1) % 256` when the start
byte is `0xBB`.  Note the sum covers bytes 0..57 only. -/
def checksumVal (d : List Nat) : Nat :=
  let c := (d.take 58).sum % 256
  if startByte d = 0xBB then (c + 255) % 256 else c

/-- `CR30Packet.calculate_checksum`: computes the checksum, stores it into
byte 59 (`self._data[59] = checksum`) and returns it.  The mutation is
modelled by returning the updated byte list together with the value. -/
def calculate_checksum (d : List Nat) : List Nat × Nat :=
  let c := checksumVal d
  (d.set 59 c, c)

/-- `CR30Packet.verify_checksum`: calls `calculate_checksum` (which
overwrites byte 59) and then compares the returned value with
`self._data[59]` — i.e. with the byte it has just stored. -/
def verify_checksum (d : List Nat) : List Nat × Bool :=
  let r := calculate_checksum d
  (r.1, r.2 == r.1.getD 59 0)

/-- `CR30Packet.to_bytes`: ensures the checksum byte is up to date, then
returns the buffer. -/
def to_bytes (d : List Nat) : List Nat := (calculate_checksum d).1

/-- `CR30Packet.is_valid`: structural validity — length, start byte, and
the per-start-marker end-marker rule.  The checksum byte is not examined. -/
def is_valid (d : List Nat) : Bool :=
  if d.length ≠ 60 then false
  else if startByte d ≠ 0xAA ∧ startByte d ≠ 0xBB then false
  else if startByte d = 0xAA ∧ marker d ≠ 0xFF then false
  else if startByte d = 0xBB ∧ marker d ≠ 0x00 ∧ marker d ≠ 0xFF then false
  else true

/-- `PacketParser.is_valid_packet`: constructing `CR30Packet(data)` raises
for a length other than 60 (caught, returning `False`), then `is_valid`. -/
def is_valid_packet (data : List Nat) : Bool :=
  data.length == 60 && is_valid data

/-- `PacketBuilder.build_packet`: fresh packet, set start / cmd / subcmd /
param, set the payload when `data` is non-empty (`if data:`), then
`to_bytes` (which fills in the checksum byte). -/
def build_packet (start cmd subcmd param : Nat) (data : List Nat) : List Nat :=
  let d := emptyPacket
  let d := setStart d start
  let d := setCmd d cmd
  let d := setSubcmd d subcmd
  let d := setParam d param
  let d := if data.isEmpty then d else setPayload d data
  to_bytes d

/-! ## Transport receive loop (device.py, `CR30Device._receive_loop`)

The loop repeatedly reads exactly 60 bytes and enqueues the chunk on the
frame FIFO iff `is_valid_packet` accepts it; rejected chunks are only
logged.  Given the sequence of 60-byte chunks read, the queue receives
exactly the accepted ones in order, i.e. a filter.  (The broadcast to raw
callbacks is a side effect with no influence on the queue and is not
modelled.) -/
def receiveLoop (chunks : List (List Nat)) : List (List Nat) :=
  chunks.filter is_valid_packet

/-! ## SPD chunk parsing (packets.py, class PacketParser)

`parse_spd_chunk` accumulates spectral bytes across the four chunk replies
`0x10..0x13`.  The parser's mutable collection state (`self._spd_bytes`,
`self._chunks_received`, `self._chunk_info_list`) is passed explicitly.
The `chunk_info` dictionaries come in two shapes — a successfully parsed
chunk, and the `{"subcmd", "error"}` entry appended by the orchestrator
when parsing raises.  The float values unpacked from the raw bytes are
display-only copies of `spd_raw` (IEEE-754 views of the same bytes) and
are represented by the raw byte list itself. -/

inductive ChunkInfo where
  | ok (subcmd : Nat) (payload : List Nat) (spdBytesCount : Nat) (spdRaw : List Nat)
  | err (subcmd : Nat) (msg : String)
deriving Repr, DecidableEq

/-- Parser SPD-collection state (`reset_spd_collection` produces the empty
state).  Python keeps `_chunks_received` as a `set`; a duplicate-free list
in insertion order carries the same membership information. -/
structure ParserState where
  spdBytes : List Nat
  chunksReceived : List Nat
  chunkInfoList : List ChunkInfo
deriving Repr, DecidableEq

/-- `PacketParser.reset_spd_collection`. -/
def reset_spd_collection : ParserState := ⟨[], [], []⟩

/-- `PacketParser.parse_spd_chunk`: validate the packet, reject an
already-received subcommand (`"Chunk 0x.. already received"`), then
accumulate `payload[2:50]` for chunks `0x10/0x11/0x12`, nothing for the
terminator `0x13`, and reject unknown subcommands. -/
def parse_spd_chunk (st : ParserState) (packet : List Nat) :
    Except String (ChunkInfo × ParserState) :=
  if ¬ (is_valid_packet packet = true) then .error ("Failed to parse packet")
  else
    let pl := payload packet
    let subcmd := packet.getD 2 0
    if subcmd ∈ st.chunksReceived then .error ("Chunk already received")
    else if subcmd = 0x10 ∨ subcmd = 0x11 ∨ subcmd = 0x12 then
      let spd_data := (pl.drop 2).take 48
      let info := ChunkInfo.ok subcmd pl spd_data.length spd_data
      .ok (info, ⟨st.spdBytes ++ spd_data, st.chunksReceived ++ [subcmd],
        st.chunkInfoList ++ [info]⟩)
    else if subcmd = 0x13 then
      let info := ChunkInfo.ok subcmd pl 0 []
      .ok (info, ⟨st.spdBytes, st.chunksReceived ++ [subcmd],
        st.chunkInfoList ++ [info]⟩)
    else .error ("Unknown SPD chunk subcmd")

/-! ## Measurement acquisition (protocol.py, class CR30Protocol) -/

/-- `self.wavelengths = list(range(400, 701, 10))` — 31 bands. -/
def wavelengths : List Nat := List.range' 400 31 10

/-- The chunk request order of `_read_all_chunks`. -/
def chunkSubcmds : List Nat := [0x10, 0x11, 0x12, 0x13]

/-- Little-endian 32-bit words of a byte list, the byte-level content of
`struct.unpack("<31f", ...)` (each word is the bit pattern of one float). -/
def toWords32 : List Nat → List Nat
  | b0 :: b1 :: b2 :: b3 :: rest =>
    (b0 + 256 * b1 + 65536 * b2 + 16777216 * b3) :: toWords32 rest
  | _ => []

/-- The `result` dictionary assembled by `_read_measurement`.  `requested`
records, in order, the subcommands for which `send_recv` was called by
`_read_all_chunks` (the loop's observable request trace); `raw` hex-dump
duplicates of the same data are omitted. -/
structure MeasResult where
  headerCmd : Nat
  headerSubcmd : Nat
  headerParam : Nat
  headerPayload : List Nat
  chunks : List ChunkInfo
  spd : List Nat
  spdData : List (Nat × Nat)
  spdBytes : List Nat
  requested : List Nat
deriving Repr, DecidableEq

/-- The `for subcmd in chunk_subcmds` loop of `_read_all_chunks`.
`replies sc` is the reply `send_recv(0xBB, 0x01, sc, 0x00)` produces
(`none` on timeout).  A missing reply breaks out of the loop; a parse
error (`ValueError`) is caught, recorded as an error entry, and the loop
continues with the next subcommand. -/
def readChunksLoop (replies : Nat → Option (List Nat)) :
    List Nat → ParserState → List ChunkInfo → List Nat →
    ParserState × List ChunkInfo × List Nat
  | [], st, infos, req => (st, infos, req)
  | sc :: rest, st, infos, req =>
    match replies sc with
    | none => (st, infos, req ++ [sc])
    | some pkt =>
      match parse_spd_chunk st pkt with
      | .ok (info, st') =>
        readChunksLoop replies rest st' (infos ++ [info]) (req ++ [sc])
      | .error e =>
        readChunksLoop replies rest st (infos ++ [ChunkInfo.err sc e]) (req ++ [sc])

/-- `CR30Protocol._read_all_chunks`: reset parser state, run the loop,
return the final state, the chunk diagnostics, and the request trace. -/
def read_all_chunks (replies : Nat → Option (List Nat)) :
    ParserState × List ChunkInfo × List Nat :=
  readChunksLoop replies chunkSubcmds reset_spd_collection [] []

/-- `CR30Protocol._read_measurement` (with `_parse_spd_data` inlined):
parse the header (raising `ValueError` for an invalid packet), read all
chunks, then decode the accumulated bytes — fewer than 124 bytes leaves
`result["spd"]` as the empty list.  `flush_recv` and the observer
callbacks are side effects that do not touch the result. -/
def read_measurement (initial : List Nat) (replies : Nat → Option (List Nat)) :
    Except String MeasResult :=
  if ¬ (is_valid_packet initial = true) then
    .error ("Invalid measurement header packet")
  else
    let out := read_all_chunks replies
    let r : MeasResult := {
      headerCmd := initial.getD 1 0
      headerSubcmd := initial.getD 2 0
      headerParam := initial.getD 3 0
      headerPayload := payload initial
      chunks := out.2.1
      spd := []
      spdData := []
      spdBytes := out.1.spdBytes
      requested := out.2.2 }
    if r.spdBytes.length < 124 then .ok r
    else
      let spd := toWords32 (r.spdBytes.take 124)
      .ok { r with spd := spd, spdData := wavelengths.zip spd }

/-! ### Concrete measurement scenarios used as counterexample/witness inputs -/

/-- A valid measurement header reply (`subcmd 0x09`). -/
def hdrPacket : List Nat := build_packet 0xBB 0x01 0x09 0 []

/-- A valid chunk reply with subcommand `sc` whose 48 spectral payload
bytes are all `b`. -/
def chunkPacket (sc b : Nat) : List Nat :=
  build_packet 0xBB 0x01 sc 0 (List.replicate 50 b)

/-- Reply oracle replaying the `0x10` chunk for the `0x11` request —
the C3 stream-desynchronization scenario. -/
def repliesDup : Nat → Option (List Nat) := fun sc =>
  if sc = 0x10 then some (chunkPacket 0x10 1)
  else if sc = 0x11 then some (chunkPacket 0x10 1)
  else if sc = 0x12 then some (chunkPacket 0x12 2)
  else if sc = 0x13 then some (chunkPacket 0x13 3)
  else none

/-- Reply oracle in which the `0x12` chunk request times out. -/
def repliesMissing : Nat → Option (List Nat) := fun sc =>
  if sc = 0x10 then some (chunkPacket 0x10 1)
  else if sc = 0x11 then some (chunkPacket 0x11 2)
  else if sc = 0x13 then some (chunkPacket 0x13 3)
  else none

/-! ## Colorimetric engine (color_science.py, class ColorScience)

Chromatic adaptation works on the fixed decimal CAT matrices; since all
constants are exact decimals, the matrices live over `ℚ` and
`np.linalg.inv` is modelled by the exact adjugate inverse.  The Lab and
sRGB conversions involve cube roots and the 2.4 power, so they are
modelled over `ℝ`. -/

/-- A 3×3 matrix of rationals (row-major). -/
structure Mat3 where
  m00 : ℚ
  m01 : ℚ
  m02 : ℚ
  m10 : ℚ
  m11 : ℚ
  m12 : ℚ
  m20 : ℚ
  m21 : ℚ
  m22 : ℚ
deriving DecidableEq, Repr

/-- Matrix–vector product `M @ v`. -/
def mat3vec (M : Mat3) (v : ℚ × ℚ × ℚ) : ℚ × ℚ × ℚ :=
  (M.m00 * v.1 + M.m01 * v.2.1 + M.m02 * v.2.2,
   M.m10 * v.1 + M.m11 * v.2.1 + M.m12 * v.2.2,
   M.m20 * v.1 + M.m21 * v.2.1 + M.m22 * v.2.2)

/-- Determinant of a 3×3 matrix. -/
def mat3det (M : Mat3) : ℚ :=
  M.m00 * (M.m11 * M.m22 - M.m12 * M.m21)
    - M.m01 * (M.m10 * M.m22 - M.m12 * M.m20)
    + M.m02 * (M.m10 * M.m21 - M.m11 * M.m20)

/-- Exact inverse via the adjugate (`np.linalg.inv` on these matrices). -/
def mat3inv (M : Mat3) : Mat3 :=
  let d := mat3det M
  ⟨ (M.m11 * M.m22 - M.m12 * M.m21) / d,
    -(M.m01 * M.m22 - M.m02 * M.m21) / d,
    (M.m01 * M.m12 - M.m02 * M.m11) / d,
    -(M.m10 * M.m22 - M.m12 * M.m20) / d,
    (M.m00 * M.m22 - M.m02 * M.m20) / d,
    -(M.m00 * M.m12 - M.m02 * M.m10) / d,
    (M.m10 * M.m21 - M.m11 * M.m20) / d,
    -(M.m00 * M.m21 - M.m01 * M.m20) / d,
    (M.m00 * M.m11 - M.m01 * M.m10) / d ⟩

/-- `_CAT_MATRICES["bradford"]`. -/
def bradfordM : Mat3 :=
  ⟨0.8951, 0.2664, -0.1614, -0.7502, 1.7135, 0.0367, 0.0389, -0.0685, 1.0296⟩

/-- `_CAT_MATRICES["cat02"]`. -/
def cat02M : Mat3 :=
  ⟨0.7328, 0.4296, -0.1624, -0.7036, 1.6975, 0.0061, 0.0030, 0.0136, 0.9834⟩

/-- `_CAT_MATRICES["kries"]` (classic von Kries / Hunt–Pointer–Estevez). -/
def kriesM : Mat3 :=
  ⟨0.4002, 0.7075, -0.0807, -0.2280, 1.1500, 0.0612, 0.0000, 0.0000, 0.9184⟩

/-- Python's `method.lower()` — ASCII lower-casing.  (Lean's own
`String.toLower` is defined by well-founded recursion, which the kernel
cannot evaluate; mapping over the character list is the same function on
ASCII method names.) -/
def strLower (s : String) : String := ⟨s.data.map Char.toLower⟩

/-- The `_CAT_MATRICES` dictionary lookup. -/
def catMatrix (name : String) : Option Mat3 :=
  if name = "bradford" then some bradfordM
  else if name = "cat02" then some cat02M
  else if name = "kries" then some kriesM
  else none

/-- `ColorScience.adapt_xyz`: lower-case the method name, reject unknown
methods (`ValueError`, the spec's `UnsupportedMethod`), then map the XYZ
triple and both white points to cone space, apply von Kries scaling, and
map back through the inverse matrix. -/
def adapt_xyz (X Y Z : ℚ) (Ws Wd : ℚ × ℚ × ℚ) (method : String) :
    Except String (ℚ × ℚ × ℚ) :=
  match catMatrix (strLower method) with
  | none => .error ("UnsupportedMethod")
  | some M =>
    let Minv := mat3inv M
    let srcCone := mat3vec M Ws
    let dstCone := mat3vec M Wd
    let xyzCone := mat3vec M (X, Y, Z)
    let scale := (dstCone.1 / srcCone.1, dstCone.2.1 / srcCone.2.1,
      dstCone.2.2 / srcCone.2.2)
    let adaptedCone := (xyzCone.1 * scale.1, xyzCone.2.1 * scale.2.1,
      xyzCone.2.2 * scale.2.2)
    .ok (mat3vec Minv adaptedCone)

/-- The adaptation formula in the spec's words: map XYZ and both white
points into cone space via the chosen fixed 3×3 matrix, scale
component-wise by `dstCone/srcCone`, map back via the matrix inverse.
Stated separately from `adapt_xyz` so the code can be compared with it. -/
def adaptSpecFormula (M : Mat3) (xyz Ws Wd : ℚ × ℚ × ℚ) : ℚ × ℚ × ℚ :=
  let srcCone := mat3vec M Ws
  let dstCone := mat3vec M Wd
  let cone := mat3vec M xyz
  mat3vec (mat3inv M) (dstCone.1 / srcCone.1 * cone.1,
    dstCone.2.1 / srcCone.2.1 * cone.2.1, dstCone.2.2 / srcCone.2.2 * cone.2.2)

/-- `WhitePoint.D65_10` (rational view, for `adapt_xyz`). -/
def D65_10q : ℚ × ℚ × ℚ := (94.81, 100.000, 107.32)

/-- `WhitePoint.D50_10` (rational view). -/
def D50_10q : ℚ × ℚ × ℚ := (96.72, 100.000, 81.43)

/-! ### Lab and sRGB conversions over ℝ -/

/-- `WhitePoint.D65_10`, the default `illuminant` of `xyz_to_lab` and
`lab_to_xyz`. -/
noncomputable def D65_10 : ℝ × ℝ × ℝ := (94.81, 100.000, 107.32)

/-- The piecewise `f(t)` of `xyz_to_lab`: `np.cbrt t` for `t > (6/29)³`
(always a positive argument there, so the real cube root is `t^(1/3)`),
else the linear ramp. -/
noncomputable def labF (t : ℝ) : ℝ :=
  if t > (6 / 29) ^ 3 then t ^ ((1 : ℝ) / 3)
  else t / (3 * (6 / 29) ^ 2) + 4 / 29

/-- The piecewise `f_inv(ft)` of `lab_to_xyz`. -/
noncomputable def labFinv (ft : ℝ) : ℝ :=
  if ft > 6 / 29 then ft ^ (3 : ℕ)
  else 3 * (6 / 29) ^ 2 * (ft - 4 / 29)

/-- `ColorScience.xyz_to_lab` (scalar path) with explicit reference white
(default `WhitePoint.D65_10`). -/
noncomputable def xyz_to_lab (X Y Z : ℝ) (wp : ℝ × ℝ × ℝ) : ℝ × ℝ × ℝ :=
  let fx := labF (X / wp.1)
  let fy := labF (Y / wp.2.1)
  let fz := labF (Z / wp.2.2)
  (116 * fy - 16, 500 * (fx - fy), 200 * (fy - fz))

/-- `ColorScience.lab_to_xyz` with explicit reference white. -/
noncomputable def lab_to_xyz (L a b : ℝ) (wp : ℝ × ℝ × ℝ) : ℝ × ℝ × ℝ :=
  let fy := (L + 16) / 116
  let fx := fy + a / 500
  let fz := fy - b / 200
  (labFinv fx * wp.1, labFinv fy * wp.2.1, labFinv fz * wp.2.2)

/-- The sRGB encode gamma of `xyz_to_rgb`. -/
noncomputable def gammaEncode (c : ℝ) : ℝ :=
  if c ≤ 0.0031308 then 12.92 * c
  else 1.055 * c ^ ((1 : ℝ) / 2.4) - 0.055

/-- The sRGB decode gamma (`inv_gamma`) of `rgb_to_xyz`. -/
noncomputable def invGamma (c : ℝ) : ℝ :=
  if c ≤ 0.04045 then c / 12.92
  else ((c + 0.055) / 1.055) ^ (2.4 : ℝ)

/-- `np.clip(rgb, 0, 1)`, one component. -/
noncomputable def clip01 (x : ℝ) : ℝ := min 1 (max 0 x)

/-- `rgb_lin = M_inv @ xyz` — the fixed XYZ→linear-sRGB matrix (D65). -/
noncomputable def rgbLin (X Y Z : ℝ) : ℝ × ℝ × ℝ :=
  (3.2404542 * X - 1.5371385 * Y - 0.4985314 * Z,
   -0.9692660 * X + 1.8760108 * Y + 0.0415560 * Z,
   0.0556434 * X - 0.2040259 * Y + 1.0572252 * Z)

/-- `ColorScience.xyz_to_rgb`: linear transform, gamma, clip to `[0,1]`,
and (for `out_255=True`) scale by 255 and round to integers.  `np.round`
rounds halves to even; Mathlib's `round` rounds them up — the theorems
below never evaluate it at a half-integer, where the two agree. -/
noncomputable def xyz_to_rgb (X Y Z : ℝ) (out255 : Bool) : ℝ × ℝ × ℝ :=
  let lin := rgbLin X Y Z
  let r := clip01 (gammaEncode lin.1)
  let g := clip01 (gammaEncode lin.2.1)
  let b := clip01 (gammaEncode lin.2.2)
  if out255 then (((round (r * 255) : ℤ) : ℝ), ((round (g * 255) : ℤ) : ℝ),
    ((round (b * 255) : ℤ) : ℝ))
  else (r, g, b)

/-- The linear-sRGB→XYZ matrix application of `rgb_to_xyz` (`M @ rgb_lin`). -/
noncomputable def srgbLinearToXyz (rl gl bl : ℝ) : ℝ × ℝ × ℝ :=
  (0.4124564 * rl + 0.3575761 * gl + 0.1804375 * bl,
   0.2126729 * rl + 0.7151522 * gl + 0.0721750 * bl,
   0.0193339 * rl + 0.1191920 * gl + 0.9503041 * bl)

/-- `rgb_to_xyz` without the 255-normalization step: decode gamma, then
the matrix. -/
noncomputable def rgbDecodeNoNorm (r g b : ℝ) : ℝ × ℝ × ℝ :=
  srgbLinearToXyz (invGamma r) (invGamma g) (invGamma b)

/-- `ColorScience.rgb_to_xyz`: divide all three components by 255 iff the
maximum component exceeds 1.0 (`if rgb.max() > 1.0: rgb /= 255.0`), then
decode. -/
noncomputable def rgb_to_xyz (r g b : ℝ) : ℝ × ℝ × ℝ :=
  if 1 < max r (max g b) then rgbDecodeNoNorm (r / 255) (g / 255) (b / 255)
  else rgbDecodeNoNorm r g b

/-! ### Helper lemmas -/

theorem length_emptyPacket : emptyPacket.length = 60 := by decide

theorem emptyPacket_eq :
    emptyPacket = 0 :: 0 :: 0 :: 0 :: (List.replicate 52 0 ++ [0, 0, 0xFF, 0]) := by
  decide

/-- Shape of a built packet: header bytes, payload zero-padded at the end,
two unused zero bytes, the `0xFF` end marker, and the checksum byte. -/
theorem build_packet_eq (s c sc p : Nat) (data : List Nat)
    (hs : s = 0xAA ∨ s = 0xBB) (hc : c < 256) (hsc : sc < 256) (hp : p < 256)
    (hlen : data.length ≤ 52) :
    build_packet s c sc p data =
      s :: c :: sc :: p :: (data ++ List.replicate (52 - data.length) 0 ++
        [0, 0, 0xFF, checksumVal (s :: c :: sc :: p ::
          (data ++ List.replicate (52 - data.length) 0 ++ [0, 0, 0xFF, 0]))]) := by
  -- the packet after the four header setters
  have h4 : setParam (setSubcmd (setCmd (setStart emptyPacket s) c) sc) p =
      s :: c :: sc :: p :: (List.replicate 52 0 ++ [0, 0, 0xFF, 0]) := by
    have hstart : setStart emptyPacket s =
        s :: 0 :: 0 :: 0 :: (List.replicate 52 0 ++ [0, 0, 0xFF, 0]) := by
      rcases hs with hs | hs <;> subst hs <;> decide
    rw [setCmd, setSubcmd, setParam, hstart,
      Nat.mod_eq_of_lt hc, Nat.mod_eq_of_lt hsc, Nat.mod_eq_of_lt hp]
    rfl
  -- the packet after the payload setter (also correct for empty data)
  have h5 : (if data.isEmpty then
        setParam (setSubcmd (setCmd (setStart emptyPacket s) c) sc) p
      else setPayload (setParam (setSubcmd (setCmd (setStart emptyPacket s) c) sc) p) data) =
      s :: c :: sc :: p :: (data ++ List.replicate (52 - data.length) 0 ++ [0, 0, 0xFF, 0]) := by
    rcases hdata : data.isEmpty with _ | _
    · -- non-empty data
      simp only [hdata, Bool.false_eq_true, if_false]
      rw [setPayload, h4]
      unfold setSlice
      have ht4 : (s :: c :: sc :: p :: (List.replicate 52 0 ++ [0, 0, 0xFF, 0])).take 4 =
          [s, c, sc, p] := rfl
      have hd56 : (s :: c :: sc :: p :: (List.replicate 52 0 ++ [0, 0, 0xFF, 0])).drop
          (4 + (List.replicate 52 0).length) = [0, 0, 0xFF, 0] := by
        simp [List.drop_left']
      rw [ht4, hd56]
      have ht4' : (([s, c, sc, p] ++ List.replicate 52 0 ++ [0, 0, 0xFF, 0]) :
          List Nat).take 4 = [s, c, sc, p] := by
        rw [List.append_assoc, List.take_left' (by rfl)]
      rw [ht4']
      have hdrop : (([s, c, sc, p] ++ List.replicate 52 0 ++ [0, 0, 0xFF, 0]) :
          List Nat).drop (4 + data.length) =
          List.replicate (52 - data.length) 0 ++ [0, 0, 0xFF, 0] := by
        rw [List.append_assoc]
        have : (4 + data.length) = ([s, c, sc, p] : List Nat).length + data.length := by
          simp
        rw [this, List.drop_append]
        rw [List.drop_append_of_le_length (by simpa using hlen), List.drop_replicate]
      rw [hdrop]
      simp
    · -- empty data
      have : data = [] := List.isEmpty_iff.mp hdata
      subst this
      simp only [List.isEmpty_nil, if_true]
      rw [h4]
      rfl
  -- to_bytes sets byte 59, which sits right after the 59-byte prefix
  rw [build_packet]
  rw [h5, to_bytes, calculate_checksum]
  have hpref : (s :: c :: sc :: p ::
      (data ++ List.replicate (52 - data.length) 0 ++ [0, 0, 0xFF, 0])) =
      (s :: c :: sc :: p :: (data ++ List.replicate (52 - data.length) 0 ++ [0, 0, 0xFF])) ++ [0] := by
    simp
  rw [hpref, List.set_append_right]
  · have hl : (s :: c :: sc :: p ::
        (data ++ List.replicate (52 - data.length) 0 ++ [0, 0, 0xFF])).length = 59 := by
      simp [Nat.add_comm, Nat.add_left_comm]
      omega
    rw [hl]
    simp
  · simp
    omega

theorem getD_append_right (l1 l2 : List Nat) (n : Nat) (h : l1.length ≤ n) :
    (l1 ++ l2).getD n 0 = l2.getD (n - l1.length) 0 := by
  simp [List.getD_eq_getElem?_getD, List.getElem?_append_right h]

theorem getD_set_self (d : List Nat) (i v : Nat) (h : i < d.length) :
    (d.set i v).getD i 0 = v := by
  simp [List.getD_eq_getElem?_getD, List.getElem?_set_self (by simpa using h)]

/-! ## Claim theorems for the frame codec -/

/-- **C1** (code evaluation).  `verify_checksum` first calls
`calculate_checksum`, which overwrites byte 59 with the freshly computed
checksum, and then compares the computed value against that same byte: it
returns `True` for *every* 60-byte frame, so no single-byte mutation of an
encoded frame is ever detected. -/
theorem verify_checksum_always_true (d : List Nat) (h : d.length = 60) :
    (verify_checksum d).2 = true := by
  have h59 : (59 : Nat) < d.length := by omega
  simp [verify_checksum, calculate_checksum, List.getElem?_set_self h59]

/-- Witness for C1: the frame `encode(0xAA, 0x0A, 0, 0, b"")` with byte 1
mutated from `0x0A` to `0x0B` still passes `verify_checksum` — the claim
says verification must fail on it. -/
theorem verify_checksum_always_true_witness :
    ((build_packet 0xAA 0x0A 0 0 []).set 1 0x0B).length = 60 ∧
    (verify_checksum ((build_packet 0xAA 0x0A 0 0 []).set 1 0x0B)).2 = true :=
  ⟨by decide, verify_checksum_always_true _ (by decide)⟩

/-- **C7** (code evaluation). `verify_checksum` mutates the frame: whenever
the stored checksum byte disagrees with the recomputed value, the returned
buffer differs from the input at byte 59. -/
theorem verify_checksum_mutates (d : List Nat) (h : d.length = 60)
    (hbad : d.getD 59 0 ≠ checksumVal d) :
    (verify_checksum d).1 ≠ d := by
  intro heq
  apply hbad
  have h59 : (59 : Nat) < d.length := by omega
  have h2 := congrArg (fun l => l.getD 59 0) heq
  simp only [verify_checksum, calculate_checksum] at h2
  rw [getD_set_self d 59 (checksumVal d) h59] at h2
  exact h2.symm

/-- Witness for C7: an encoded handshake frame whose checksum byte was
zeroed is *changed* by `verify_checksum`. -/
theorem verify_checksum_mutates_witness :
    ((build_packet 0xAA 0x0A 0 0 []).set 59 0).length = 60 ∧
    ((build_packet 0xAA 0x0A 0 0 []).set 59 0).getD 59 0 ≠
      checksumVal ((build_packet 0xAA 0x0A 0 0 []).set 59 0) ∧
    (verify_checksum ((build_packet 0xAA 0x0A 0 0 []).set 59 0)).1 ≠
      ((build_packet 0xAA 0x0A 0 0 []).set 59 0) :=
  ⟨by decide, by decide, verify_checksum_mutates _ (by decide) (by decide)⟩

/-- **C5** (counterexample).  For the encoded frame
`encode(0xAA, 0, 0, 0, b"")` the checksum byte does *not* equal the sum of
bytes 0 through 58 inclusive mod 256: the code sums bytes 0..57 only, so
the `0xFF` end marker at byte 58 is left out. -/
theorem checksum_counterexample :
    (build_packet 0xAA 0 0 0 []).getD 59 0 ≠
      ((build_packet 0xAA 0 0 0 []).take 59).sum % 256 := by decide

/-- **C5** (amended).  For every frame produced by `build_packet`, byte 59
equals the sum of bytes 0 through **57** inclusive mod 256 when the start
marker is Handshake (0xAA), and that sum minus 1 mod 256 when the start
marker is Command (0xBB). -/
theorem checksum_spec (s c sc p : Nat) (data : List Nat)
    (hs : s = 0xAA ∨ s = 0xBB) (hc : c < 256) (hsc : sc < 256) (hp : p < 256)
    (hlen : data.length ≤ 52) :
    (build_packet s c sc p data).getD 59 0 =
      if s = 0xBB then
        ((((build_packet s c sc p data).take 58).sum % 256) + 255) % 256
      else ((build_packet s c sc p data).take 58).sum % 256 := by
  rw [build_packet_eq s c sc p data hs hc hsc hp hlen]
  set pre : List Nat := s :: c :: sc :: p ::
    (data ++ List.replicate (52 - data.length) 0 ++ [0, 0, 0xFF, 0]) with hpre
  set F : List Nat := s :: c :: sc :: p ::
    (data ++ List.replicate (52 - data.length) 0 ++ [0, 0, 0xFF, checksumVal pre]) with hF
  -- byte 59 of F is the stored value
  have h59 : F.getD 59 0 = checksumVal pre := by
    have : F = (s :: c :: sc :: p ::
        (data ++ List.replicate (52 - data.length) 0 ++ [0, 0, 0xFF])) ++
        [checksumVal pre] := by simp [hF]
    rw [this, getD_append_right]
    · have : (s :: c :: sc :: p ::
          (data ++ List.replicate (52 - data.length) 0 ++ [0, 0, 0xFF])).length = 59 := by
        simp; omega
      rw [this]
      rfl
    · simp; omega
  -- F and pre agree on bytes 0..57 (in fact 0..58)
  have htake : F.take 58 = pre.take 58 := by
    have hFsplit : F = (s :: c :: sc :: p ::
        (data ++ List.replicate (52 - data.length) 0 ++ [0, 0, 0xFF])) ++
        [checksumVal pre] := by simp [hF]
    have hpresplit : pre = (s :: c :: sc :: p ::
        (data ++ List.replicate (52 - data.length) 0 ++ [0, 0, 0xFF])) ++ [0] := by
      simp [hpre]
    have hlen59 : (s :: c :: sc :: p ::
        (data ++ List.replicate (52 - data.length) 0 ++ [0, 0, 0xFF])).length = 59 := by
      simp; omega
    rw [hFsplit, hpresplit, List.take_append_of_le_length (by omega),
      List.take_append_of_le_length (by omega)]
  have hstart : startByte pre = s := rfl
  rw [h59, htake, checksumVal, hstart]

/-- Witness for C5 at `encode(0xBB, 1, 2, 3, [9, 9])`. -/
theorem checksum_spec_witness :
    (build_packet 0xBB 1 2 3 [9, 9]).getD 59 0 =
      if (0xBB : Nat) = 0xBB then
        ((((build_packet 0xBB 1 2 3 [9, 9]).take 58).sum % 256) + 255) % 256
      else ((build_packet 0xBB 1 2 3 [9, 9]).take 58).sum % 256 :=
  checksum_spec 0xBB 1 2 3 [9, 9] (Or.inr rfl) (by decide) (by decide) (by decide)
    (by decide)

/-- **C4**.  Decoding a frame produced by `build_packet` recovers the start
marker, cmd, subcmd and param exactly, the frame is structurally valid
(decode succeeds), and its 52-byte payload is the input payload zero-padded
at the end. -/
theorem decode_encode_roundtrip (s c sc p : Nat) (data : List Nat)
    (hs : s = 0xAA ∨ s = 0xBB) (hc : c < 256) (hsc : sc < 256) (hp : p < 256)
    (hlen : data.length ≤ 52) :
    is_valid_packet (build_packet s c sc p data) = true ∧
    startByte (build_packet s c sc p data) = s ∧
    (build_packet s c sc p data).getD 1 0 = c ∧
    (build_packet s c sc p data).getD 2 0 = sc ∧
    (build_packet s c sc p data).getD 3 0 = p ∧
    payload (build_packet s c sc p data) =
      data ++ List.replicate (52 - data.length) 0 := by
  rw [build_packet_eq s c sc p data hs hc hsc hp hlen]
  set χ : Nat := checksumVal (s :: c :: sc :: p ::
    (data ++ List.replicate (52 - data.length) 0 ++ [0, 0, 0xFF, 0])) with hχ
  set F : List Nat := s :: c :: sc :: p ::
    (data ++ List.replicate (52 - data.length) 0 ++ [0, 0, 0xFF, χ]) with hF
  have hlenF : F.length = 60 := by simp [hF]; omega
  have hmid : (data ++ List.replicate (52 - data.length) 0).length = 52 := by
    simp; omega
  have hmark : marker F = 0xFF := by
    have hsplit : F = (s :: c :: sc :: p ::
        (data ++ List.replicate (52 - data.length) 0)) ++ [0, 0, 0xFF, χ] := by
      simp [hF]
    have hl56 : (s :: c :: sc :: p ::
        (data ++ List.replicate (52 - data.length) 0)).length = 56 := by
      simp; omega
    rw [marker, hsplit, getD_append_right _ _ _ (by omega), hl56]
    rfl
  have hstart : startByte F = s := rfl
  refine ⟨?_, hstart, rfl, rfl, rfl, ?_⟩
  · rw [is_valid_packet, is_valid]
    rcases hs with hs | hs <;>
      simp [hlenF, hstart, hmark, hs]
  · rw [payload]
    have hdrop : F.drop 4 = (data ++ List.replicate (52 - data.length) 0) ++
        [0, 0, 0xFF, χ] := by simp [hF]
    rw [hdrop, List.take_append_of_le_length (by omega), List.take_of_length_le (by omega)]

/-- Witness for C4 at `encode(0xAA, 0x0A, 1, 2, [7, 8, 9])`. -/
theorem decode_encode_roundtrip_witness :
    is_valid_packet (build_packet 0xAA 0x0A 1 2 [7, 8, 9]) = true ∧
    startByte (build_packet 0xAA 0x0A 1 2 [7, 8, 9]) = 0xAA ∧
    (build_packet 0xAA 0x0A 1 2 [7, 8, 9]).getD 1 0 = 0x0A ∧
    (build_packet 0xAA 0x0A 1 2 [7, 8, 9]).getD 2 0 = 1 ∧
    (build_packet 0xAA 0x0A 1 2 [7, 8, 9]).getD 3 0 = 2 ∧
    payload (build_packet 0xAA 0x0A 1 2 [7, 8, 9]) =
      [7, 8, 9] ++ List.replicate (52 - ([7, 8, 9] : List Nat).length) 0 :=
  decode_encode_roundtrip 0xAA 0x0A 1 2 [7, 8, 9] (Or.inl rfl) (by decide) (by decide)
    (by decide) (by decide)

/-- **C2** (counterexample).  A structurally valid 60-byte chunk whose
stored checksum byte is wrong (here zeroed) is *accepted* by the receive
loop filter and enqueued; the checksum is never checked on receive. -/
theorem receive_loop_accepts_bad_checksum :
    receiveLoop [(build_packet 0xAA 0x0A 0 0 []).set 59 1] =
      [(build_packet 0xAA 0x0A 0 0 []).set 59 1] ∧
    ((build_packet 0xAA 0x0A 0 0 []).set 59 1).getD 59 0 ≠
      checksumVal ((build_packet 0xAA 0x0A 0 0 []).set 59 1) ∧
    ((build_packet 0xAA 0x0A 0 0 []).set 59 1).getD 59 0 ≠
      (((build_packet 0xAA 0x0A 0 0 []).set 59 1).take 59).sum % 256 := by
  refine ⟨?_, by decide, by decide⟩
  decide

/-- **C2** (amended).  A 60-byte chunk is enqueued by the Transport read
loop iff it satisfies the *structural* frame invariant: length exactly 60,
start marker in {0xAA, 0xBB}, end marker 0xFF for Handshake frames and in
{0x00, 0xFF} for Command frames.  The stored checksum byte plays no role. -/
theorem receive_loop_structural (chunks : List (List Nat)) (c : List Nat) :
    c ∈ receiveLoop chunks ↔
      c ∈ chunks ∧ c.length = 60 ∧
        ((startByte c = 0xAA ∧ marker c = 0xFF) ∨
         (startByte c = 0xBB ∧ (marker c = 0x00 ∨ marker c = 0xFF))) := by
  rw [receiveLoop, List.mem_filter]
  refine and_congr_right fun _ => ?_
  rw [is_valid_packet, is_valid]
  constructor
  · intro h
    by_cases h60 : c.length = 60 <;>
      by_cases hAA : startByte c = 0xAA <;>
        by_cases hBB : startByte c = 0xBB <;>
          by_cases hm0 : marker c = 0x00 <;>
            by_cases hmF : marker c = 0xFF <;>
              simp_all
  · rintro ⟨h60, h⟩
    rcases h with ⟨hs, hm⟩ | ⟨hs, hm⟩
    · simp [h60, hs, hm]
    · rcases hm with hm | hm <;> simp [h60, hs, hm]

/-! ## Claim theorems for measurement acquisition -/

/-- The request trace of the chunk loop: every subcommand up to and
including the first one whose reply is missing is requested; none after. -/
theorem readChunksLoop_requested (replies : Nat → Option (List Nat))
    (scs : List Nat) :
    ∀ (st : ParserState) (infos : List ChunkInfo) (req : List Nat),
      (readChunksLoop replies scs st infos req).2.2 =
        req ++ scs.take
          ((scs.takeWhile (fun sc => (replies sc).isSome)).length + 1) := by
  induction scs with
  | nil => intro st infos req; simp [readChunksLoop]
  | cons sc rest ih =>
    intro st infos req
    cases hr : replies sc with
    | none =>
      simp [readChunksLoop, hr, List.takeWhile_cons]
    | some pkt =>
      have hpred : (replies sc).isSome = true := by rw [hr]; rfl
      cases hp : parse_spd_chunk st pkt with
      | ok v =>
        simp only [readChunksLoop, hr, hp]
        rw [ih]
        simp [List.takeWhile_cons, hpred, List.take_succ_cons]
      | error e =>
        simp only [readChunksLoop, hr, hp]
        rw [ih]
        simp [List.takeWhile_cons, hpred, List.take_succ_cons]

/-- Explicit form of a successful measurement run. -/
theorem read_measurement_eq (hdr : List Nat) (replies : Nat → Option (List Nat))
    (hhdr : is_valid_packet hdr = true) :
    read_measurement hdr replies = .ok {
      headerCmd := hdr.getD 1 0
      headerSubcmd := hdr.getD 2 0
      headerParam := hdr.getD 3 0
      headerPayload := payload hdr
      chunks := (read_all_chunks replies).2.1
      spd := if (read_all_chunks replies).1.spdBytes.length < 124 then []
        else toWords32 ((read_all_chunks replies).1.spdBytes.take 124)
      spdData := if (read_all_chunks replies).1.spdBytes.length < 124 then []
        else wavelengths.zip (toWords32 ((read_all_chunks replies).1.spdBytes.take 124))
      spdBytes := (read_all_chunks replies).1.spdBytes
      requested := (read_all_chunks replies).2.2 } := by
  by_cases h : (read_all_chunks replies).1.spdBytes.length < 124 <;>
    simp [read_measurement, hhdr, h]

/-- **C6**.  If the reply to the `k`-th chunk request is missing (and the
earlier ones arrived), the loop stops after requesting exactly the first
`k+1` subcommands, the measurement still returns a result (no error), the
result preserves the partial byte accumulation, and when fewer than 124
bytes were accumulated the decoded curve stays empty — nothing is
fabricated. -/
theorem missing_chunk_keeps_partial (replies : Nat → Option (List Nat))
    (k : Nat) (hk : k < 4)
    (hnone : replies (chunkSubcmds.getD k 0) = none)
    (hsome : ∀ j < k, (replies (chunkSubcmds.getD j 0)).isSome = true)
    (hdr : List Nat) (hhdr : is_valid_packet hdr = true) :
    (read_all_chunks replies).2.2 = chunkSubcmds.take (k + 1) ∧
    (read_measurement hdr replies).isOk = true ∧
    (read_measurement hdr replies).map MeasResult.requested =
      .ok (chunkSubcmds.take (k + 1)) ∧
    (read_measurement hdr replies).map MeasResult.spdBytes =
      .ok (read_all_chunks replies).1.spdBytes ∧
    ((read_all_chunks replies).1.spdBytes.length < 124 →
      (read_measurement hdr replies).map MeasResult.spd = .ok []) := by
  have hreq : (read_all_chunks replies).2.2 = chunkSubcmds.take (k + 1) := by
    rw [read_all_chunks, readChunksLoop_requested]
    have hlen : (chunkSubcmds.takeWhile (fun sc => (replies sc).isSome)).length = k := by
      interval_cases k
      · simp only [chunkSubcmds, List.getD_cons_zero] at hnone
        simp [chunkSubcmds, List.takeWhile_cons, hnone]
      · have h0 := hsome 0 (by omega)
        simp only [chunkSubcmds, List.getD_cons_zero, List.getD_cons_succ] at hnone h0
        simp [chunkSubcmds, List.takeWhile_cons, hnone, h0]
      · have h0 := hsome 0 (by omega)
        have h1 := hsome 1 (by omega)
        simp only [chunkSubcmds, List.getD_cons_zero, List.getD_cons_succ] at hnone h0 h1
        simp [chunkSubcmds, List.takeWhile_cons, hnone, h0, h1]
      · have h0 := hsome 0 (by omega)
        have h1 := hsome 1 (by omega)
        have h2 := hsome 2 (by omega)
        simp only [chunkSubcmds, List.getD_cons_zero, List.getD_cons_succ] at hnone h0 h1 h2
        simp [chunkSubcmds, List.takeWhile_cons, hnone, h0, h1, h2]
    rw [hlen]
    simp
  rw [read_measurement_eq hdr replies hhdr]
  refine ⟨hreq, rfl, by simp [Except.map, hreq], by simp [Except.map], ?_⟩
  intro h124
  simp [Except.map, h124]

/-- Witness for C6: the scenario in which the `0x12` chunk reply never
arrives.  Only `0x10, 0x11, 0x12` are requested, the measurement returns
a result whose 96 accumulated bytes are preserved, and the spd list stays
empty. -/
theorem missing_chunk_keeps_partial_witness :
    (read_all_chunks repliesMissing).2.2 = chunkSubcmds.take 3 ∧
    (read_measurement hdrPacket repliesMissing).isOk = true ∧
    (read_measurement hdrPacket repliesMissing).map MeasResult.requested =
      .ok (chunkSubcmds.take 3) ∧
    (read_measurement hdrPacket repliesMissing).map MeasResult.spdBytes =
      .ok (read_all_chunks repliesMissing).1.spdBytes ∧
    (read_measurement hdrPacket repliesMissing).map MeasResult.spd = .ok [] := by
  have h := missing_chunk_keeps_partial repliesMissing 2 (by decide) (by decide)
    (by decide) hdrPacket (by decide)
  exact ⟨h.1, h.2.1, h.2.2.1, h.2.2.2.1, h.2.2.2.2 (by decide)⟩

/-- **C3** (counterexample).  In the replayed-chunk scenario (`0x10`'s
reply returned again for the `0x11` request) the measurement call does
*not* raise: it returns a result whose diagnostics merely record the
duplicate-chunk parse error for step `0x11`, and the remaining chunks are
still processed. -/
theorem duplicate_chunk_counterexample :
    (read_measurement hdrPacket repliesDup).isOk = true ∧
    (read_measurement hdrPacket repliesDup).map MeasResult.chunks =
      .ok [ChunkInfo.ok 0x10 (payload (chunkPacket 0x10 1)) 48 (List.replicate 48 1),
           ChunkInfo.err 0x11 ("Chunk already received"),
           ChunkInfo.ok 0x12 (payload (chunkPacket 0x12 2)) 48 (List.replicate 48 2),
           ChunkInfo.ok 0x13 (payload (chunkPacket 0x13 3)) 0 []] := by
  exact ⟨by decide, rfl⟩

/-- **C3** (amended).  The *parser* rejects a duplicate subcommand with a
`"Chunk already received"` error, but `_read_all_chunks` catches it,
records it in the chunk diagnostics, and continues; with a valid header
the measurement call always returns a result instead of raising. -/
theorem duplicate_chunk_swallowed :
    (∀ (st : ParserState) (packet : List Nat),
      is_valid_packet packet = true →
      packet.getD 2 0 ∈ st.chunksReceived →
      parse_spd_chunk st packet = .error ("Chunk already received")) ∧
    (∀ (hdr : List Nat) (replies : Nat → Option (List Nat)),
      is_valid_packet hdr = true →
      (read_measurement hdr replies).isOk = true) := by
  constructor
  · intro st packet hvalid hmem
    rw [parse_spd_chunk, if_neg (by simp [hvalid])]
    rw [if_pos hmem]
  · intro hdr replies hvalid
    rw [read_measurement_eq hdr replies hvalid]
    rfl

/-- Witness for C3 (amended): the parser errors on the replayed `0x10`
chunk, while the surrounding measurement with the replayed stream still
returns a result. -/
theorem duplicate_chunk_swallowed_witness :
    parse_spd_chunk ⟨[], [0x10], []⟩ (chunkPacket 0x10 1) =
      .error ("Chunk already received") ∧
    (read_measurement hdrPacket repliesDup).isOk = true :=
  ⟨duplicate_chunk_swallowed.1 ⟨[], [0x10], []⟩ (chunkPacket 0x10 1)
      (by decide) (by decide),
   duplicate_chunk_swallowed.2 hdrPacket repliesDup (by decide)⟩

/-! ## Claim theorems for chromatic adaptation -/

/-- **C8**.  `adapt_xyz` succeeds exactly for the supported method names
(`bradford`, `cat02`, `kries` — the code's identifiers for Bradford,
CAT02 and von Kries, case-insensitively), in which case it returns the
spec's cone-space formula (map in, scale by `dstCone/srcCone`, map back
via the inverse); any other method name fails with the unsupported-method
error. -/
theorem chromatic_adaptation_behavior :
    (∀ (X Y Z : ℚ) (Ws Wd : ℚ × ℚ × ℚ) (method : String) (M : Mat3),
      catMatrix (strLower method) = some M →
      adapt_xyz X Y Z Ws Wd method = .ok (adaptSpecFormula M (X, Y, Z) Ws Wd)) ∧
    (∀ (X Y Z : ℚ) (Ws Wd : ℚ × ℚ × ℚ) (method : String),
      strLower method ∉ (["bradford", "cat02", "kries"] : List String) →
      adapt_xyz X Y Z Ws Wd method = .error ("UnsupportedMethod")) ∧
    (∀ method : String, (catMatrix (strLower method)).isSome = true ↔
      strLower method ∈ (["bradford", "cat02", "kries"] : List String)) := by
  refine ⟨?_, ?_, ?_⟩
  · intro X Y Z Ws Wd method M hM
    simp only [adapt_xyz, hM, adaptSpecFormula]
    refine congrArg Except.ok ?_
    simp only [mat3vec, Prod.mk.injEq]
    refine ⟨by ring, by ring, by ring⟩
  · intro X Y Z Ws Wd method hnot
    have h1 : strLower method ≠ "bradford" := by intro h; exact hnot (by simp [h])
    have h2 : strLower method ≠ "cat02" := by intro h; exact hnot (by simp [h])
    have h3 : strLower method ≠ "kries" := by intro h; exact hnot (by simp [h])
    simp only [adapt_xyz, catMatrix, h1, h2, h3, if_false]
  · intro method
    by_cases h1 : strLower method = "bradford"
    · simp [catMatrix, h1]
    · by_cases h2 : strLower method = "cat02"
      · simp [catMatrix, h1, h2]
      · by_cases h3 : strLower method = "kries"
        · simp [catMatrix, h1, h2, h3]
        · simp [catMatrix, h1, h2, h3]

/-- Witness for C8: Bradford adaptation from D65/10° to D50/10° succeeds
with the cone-scaling formula, and method `"unknown"` is rejected. -/
theorem chromatic_adaptation_behavior_witness :
    adapt_xyz 50 50 50 D65_10q D50_10q "bradford" =
      .ok (adaptSpecFormula bradfordM (50, 50, 50) D65_10q D50_10q) ∧
    adapt_xyz 50 50 50 D65_10q D50_10q "unknown" =
      .error ("UnsupportedMethod") :=
  ⟨chromatic_adaptation_behavior.1 50 50 50 D65_10q D50_10q "bradford" bradfordM
      rfl,
   chromatic_adaptation_behavior.2.1 50 50 50 D65_10q D50_10q "unknown" (by decide)⟩

/-! ## Helper lemmas for the sRGB gamma and Lab `f` functions -/

theorem clip01_of_mem (x : ℝ) (h0 : 0 ≤ x) (h1 : x ≤ 1) : clip01 x = x := by
  rw [clip01, max_eq_right h0, min_eq_right h1]

theorem clip01_nonneg (x : ℝ) : 0 ≤ clip01 x := by
  rw [clip01]
  exact le_min (by norm_num) (le_max_left 0 x)

theorem clip01_le_one (x : ℝ) : clip01 x ≤ 1 := min_le_left 1 _

/-- On `[0,1]` the encode gamma stays in `[0,1]`. -/
theorem gammaEncode_mem (c : ℝ) (h0 : 0 ≤ c) (h1 : c ≤ 1) :
    gammaEncode c ≤ 1 := by
  rw [gammaEncode]
  split
  · linarith
  · have : c ^ ((1 : ℝ) / 2.4) ≤ 1 := Real.rpow_le_one h0 h1 (by norm_num)
    linarith

/-- For `c ≥ 1` the encoded value is at least 1 (it gets clipped to 1). -/
theorem gammaEncode_ge_one (c : ℝ) (h : 1 ≤ c) : 1 ≤ gammaEncode c := by
  rw [gammaEncode, if_neg (by norm_num; linarith)]
  have h1 : (1 : ℝ) = 1 ^ ((1 : ℝ) / 2.4) := (Real.one_rpow _).symm
  have h2 : (1 : ℝ) ^ ((1 : ℝ) / 2.4) ≤ c ^ ((1 : ℝ) / 2.4) :=
    Real.rpow_le_rpow (by norm_num) h (by norm_num)
  nlinarith [h2]

/-- `(0.09545/1.055) ^ 2.4 < 0.0032`: the encode threshold, comparing
twelfth powers. -/
theorem x0_rpow_lt : ((0.09545 : ℝ) / 1.055) ^ (2.4 : ℝ) < 0.0032 := by
  have hx0 : (0 : ℝ) ≤ 0.09545 / 1.055 := by norm_num
  have hkey : (((0.09545 : ℝ) / 1.055) ^ (2.4 : ℝ)) ^ (5 : ℕ) =
      ((0.09545 : ℝ) / 1.055) ^ (12 : ℕ) := by
    rw [← Real.rpow_natCast (((0.09545 : ℝ) / 1.055) ^ (2.4 : ℝ)) 5,
      ← Real.rpow_mul hx0, ← Real.rpow_natCast ((0.09545 : ℝ) / 1.055) 12]
    norm_num
  have hlt : (((0.09545 : ℝ) / 1.055) ^ (2.4 : ℝ)) ^ (5 : ℕ) <
      (0.0032 : ℝ) ^ (5 : ℕ) := by
    rw [hkey]
    norm_num
  exact lt_of_pow_lt_pow_left 5 (by norm_num) hlt

/-- For `0.0032 ≤ c ≤ 1` the encoded value exceeds the decode threshold
`0.04045`. -/
theorem gammaEncode_gt_threshold (c : ℝ) (hc : 0.0032 ≤ c) (h1 : c ≤ 1) :
    0.04045 < gammaEncode c := by
  rw [gammaEncode, if_neg (by norm_num; linarith)]
  have hx0 : (0 : ℝ) ≤ 0.09545 / 1.055 := by norm_num
  have hlt : ((0.09545 : ℝ) / 1.055) ^ (2.4 : ℝ) < c :=
    lt_of_lt_of_le x0_rpow_lt hc
  have hmono : (((0.09545 : ℝ) / 1.055) ^ (2.4 : ℝ)) ^ ((1 : ℝ) / 2.4) <
      c ^ ((1 : ℝ) / 2.4) :=
    Real.rpow_lt_rpow (Real.rpow_nonneg hx0 _) hlt (by norm_num)
  have hid : (((0.09545 : ℝ) / 1.055) ^ (2.4 : ℝ)) ^ ((1 : ℝ) / 2.4) =
      (0.09545 : ℝ) / 1.055 := by
    rw [← Real.rpow_mul hx0]
    norm_num
  rw [hid] at hmono
  nlinarith [hmono]

/-- Exact gamma round-trip on a branch-safe component: encode, clip,
decode gives back the input. -/
theorem invGamma_gammaEncode (c : ℝ) (h0 : 0 ≤ c) (h1 : c ≤ 1)
    (hb : c ≤ 0.0031308 ∨ 0.0032 ≤ c) :
    invGamma (clip01 (gammaEncode c)) = c := by
  rcases hb with hb | hb
  · -- linear branch on both sides
    have hge : gammaEncode c = 12.92 * c := by rw [gammaEncode, if_pos hb]
    rw [hge, clip01_of_mem _ (by linarith) (by linarith), invGamma,
      if_pos (by linarith)]
    field_simp
  · -- power branch on both sides
    have hgt := gammaEncode_gt_threshold c hb h1
    have hle := gammaEncode_mem c h0 h1
    have hge : gammaEncode c = 1.055 * c ^ ((1 : ℝ) / 2.4) - 0.055 := by
      rw [gammaEncode, if_neg (by norm_num; linarith)]
    rw [clip01_of_mem _ (by linarith) hle, invGamma, if_neg (by linarith)]
    rw [hge]
    have hbase : (1.055 * c ^ ((1 : ℝ) / 2.4) - 0.055 + 0.055) / 1.055 =
        c ^ ((1 : ℝ) / 2.4) := by ring
    rw [hbase, ← Real.rpow_mul h0]
    norm_num

/-- `(0.09545/1.055)^3 > (1/255)/12.92`, the cube bound used for the
strict decode monotonicity on scaled components. -/
theorem x0_cube_gt : ((1 : ℝ) / 255) / 12.92 < ((0.09545 : ℝ) / 1.055) ^ (3 : ℕ) := by
  norm_num

/-- `inv_gamma` grows strictly when a component in `(0, 1/255]` is scaled
by 255. -/
theorem invGamma_scale_lt (c : ℝ) (h0 : 0 < c) (h1 : 255 * c ≤ 1) :
    invGamma c < invGamma (255 * c) := by
  have hc : c ≤ 1 / 255 := by linarith
  have hsmall : invGamma c = c / 12.92 := by
    rw [invGamma, if_pos (by norm_num; linarith)]
  by_cases hbig : 255 * c ≤ 0.04045
  · rw [hsmall, invGamma, if_pos hbig]
    exact (div_lt_div_right (by norm_num)).mpr (by linarith)
  · rw [hsmall, invGamma, if_neg hbig]
    push_neg at hbig
    have hx0 : (0 : ℝ) ≤ 0.09545 / 1.055 := by norm_num
    have hbase : (0.09545 : ℝ) / 1.055 ≤ (255 * c + 0.055) / 1.055 := by
      rw [div_le_div_iff_of_pos_right (by norm_num)]
      linarith
    have h24 : ((0.09545 : ℝ) / 1.055) ^ (2.4 : ℝ) ≤
        ((255 * c + 0.055) / 1.055) ^ (2.4 : ℝ) :=
      Real.rpow_le_rpow hx0 hbase (by norm_num)
    have h3le : ((0.09545 : ℝ) / 1.055) ^ ((3 : ℕ) : ℝ) ≤
        ((0.09545 : ℝ) / 1.055) ^ (2.4 : ℝ) :=
      Real.rpow_le_rpow_of_exponent_ge (by norm_num) (by norm_num) (by norm_num)
    rw [Real.rpow_natCast] at h3le
    have := x0_cube_gt
    have hcb : c / 12.92 ≤ (1 / 255 : ℝ) / 12.92 :=
      (div_le_div_right (by norm_num)).mpr hc
    linarith

/-- Non-strict version (also covers `c = 0`). -/
theorem invGamma_scale_le (c : ℝ) (h0 : 0 ≤ c) (h1 : 255 * c ≤ 1) :
    invGamma c ≤ invGamma (255 * c) := by
  rcases eq_or_lt_of_le h0 with h | h
  · rw [← h]
    norm_num
  · exact le_of_lt (invGamma_scale_lt c h (by linarith))

/-! ## Claim theorems for `rgb_to_xyz` input normalization -/

/-- **C10**.  `rgb_to_xyz` divides all three components by 255 iff the
maximum input component exceeds 1.0; consequently a triple in `[0,1]³`
and its 255-scaled sibling map to the same XYZ exactly when the scaled
triple has a component above 1.0 — when even the scaled triple stays
within `[0,1]` (all components ≤ 1/255), the two yield different XYZ. -/
theorem rgb_normalization :
    (∀ r g b : ℝ, 1 < max r (max g b) →
      rgb_to_xyz r g b = rgbDecodeNoNorm (r / 255) (g / 255) (b / 255)) ∧
    (∀ r g b : ℝ, max r (max g b) ≤ 1 →
      rgb_to_xyz r g b = rgbDecodeNoNorm r g b) ∧
    (∀ r g b : ℝ, 0 ≤ r → r ≤ 1 → 0 ≤ g → g ≤ 1 → 0 ≤ b → b ≤ 1 →
      1 < max (255 * r) (max (255 * g) (255 * b)) →
      rgb_to_xyz (255 * r) (255 * g) (255 * b) = rgb_to_xyz r g b) ∧
    (∀ r g b : ℝ, 0 ≤ r → r ≤ 1 → 0 ≤ g → g ≤ 1 → 0 ≤ b → b ≤ 1 →
      max (255 * r) (max (255 * g) (255 * b)) ≤ 1 →
      ¬ (r = 0 ∧ g = 0 ∧ b = 0) →
      rgb_to_xyz (255 * r) (255 * g) (255 * b) ≠ rgb_to_xyz r g b) := by
  refine ⟨?_, ?_, ?_, ?_⟩
  · intro r g b h
    rw [rgb_to_xyz, if_pos h]
  · intro r g b h
    rw [rgb_to_xyz, if_neg (not_lt.mpr h)]
  · intro r g b h0r h1r h0g h1g h0b h1b hbig
    have hsm : max r (max g b) ≤ 1 := by
      exact max_le h1r (max_le h1g h1b)
    rw [rgb_to_xyz, if_pos hbig, rgb_to_xyz, if_neg (not_lt.mpr hsm),
      show (255 * r / 255 : ℝ) = r from by ring,
      show (255 * g / 255 : ℝ) = g from by ring,
      show (255 * b / 255 : ℝ) = b from by ring]
  · intro r g b h0r h1r h0g h1g h0b h1b hsmall hnz
    have hr1 : 255 * r ≤ 1 := (le_max_left _ _).trans hsmall
    have hg1 : 255 * g ≤ 1 :=
      ((le_max_left _ _).trans (le_max_right _ _)).trans hsmall
    have hb1 : 255 * b ≤ 1 :=
      ((le_max_right _ _).trans (le_max_right _ _)).trans hsmall
    have hsm : max r (max g b) ≤ 1 := by
      refine max_le h1r (max_le h1g h1b)
    rw [rgb_to_xyz, if_neg (not_lt.mpr hsmall), rgb_to_xyz, if_neg (not_lt.mpr hsm)]
    have hpos : 0 < r ∨ 0 < g ∨ 0 < b := by
      by_contra hall
      push_neg at hall
      exact hnz ⟨le_antisymm hall.1 h0r, le_antisymm hall.2.1 h0g,
        le_antisymm hall.2.2 h0b⟩
    have hle1 := invGamma_scale_le r h0r hr1
    have hle2 := invGamma_scale_le g h0g hg1
    have hle3 := invGamma_scale_le b h0b hb1
    have hsum : (rgbDecodeNoNorm r g b).1 <
        (rgbDecodeNoNorm (255 * r) (255 * g) (255 * b)).1 := by
      simp only [rgbDecodeNoNorm, srgbLinearToXyz]
      rcases hpos with hp | hp | hp
      · have hd := invGamma_scale_lt r hp hr1
        nlinarith [hd, hle2, hle3]
      · have hd := invGamma_scale_lt g hp hg1
        nlinarith [hd, hle1, hle3]
      · have hd := invGamma_scale_lt b hp hb1
        nlinarith [hd, hle1, hle2]
    intro heq
    have hfst := congrArg Prod.fst heq
    rw [hfst] at hsum
    exact lt_irrefl _ hsum

/-- Witness for C10: `(127.5, 63.75, 0)` is normalized (its maximum
exceeds 1), `(0.5, 0.25, 0)` is not; scaling `(0.5, 0.25, 0)` by 255
lands on the same XYZ, while scaling the tiny triple `(1/500, 0, 0)`
(whose 255-fold stays within `[0,1]`) changes the XYZ. -/
theorem rgb_normalization_witness :
    rgb_to_xyz 127.5 63.75 0 = rgbDecodeNoNorm (127.5 / 255) (63.75 / 255) (0 / 255) ∧
    rgb_to_xyz 0.5 0.25 0 = rgbDecodeNoNorm 0.5 0.25 0 ∧
    rgb_to_xyz (255 * 0.5) (255 * 0.25) (255 * 0) = rgb_to_xyz 0.5 0.25 0 ∧
    rgb_to_xyz (255 * (1/500)) (255 * 0) (255 * 0) ≠ rgb_to_xyz (1/500) 0 0 :=
  ⟨rgb_normalization.1 127.5 63.75 0
      (lt_of_lt_of_le (by norm_num) (le_max_left _ _)),
   rgb_normalization.2.1 0.5 0.25 0
      (max_le (by norm_num) (max_le (by norm_num) (by norm_num))),
   rgb_normalization.2.2.1 0.5 0.25 0 (by norm_num) (by norm_num) (by norm_num)
      (by norm_num) (by norm_num) (by norm_num)
      (lt_of_lt_of_le (by norm_num) (le_max_left _ _)),
   rgb_normalization.2.2.2 (1/500) 0 0 (by norm_num) (by norm_num) (by norm_num)
      (by norm_num) (by norm_num) (by norm_num)
      (max_le (by norm_num) (max_le (by norm_num) (by norm_num)))
      (by norm_num)⟩

/-! ## Claim theorems for the conversion round-trips -/

/-- Lab `f` after its inverse is the identity (everywhere). -/
theorem labF_labFinv (u : ℝ) : labF (labFinv u) = u := by
  rw [labFinv]
  split
  · -- u > 6/29 : cube then real cube root
    rename_i h
    have hu : (0 : ℝ) ≤ u := le_of_lt (lt_trans (by norm_num) h)
    have hcube : ((6 : ℝ) / 29) ^ 3 < u ^ (3 : ℕ) := by
      exact pow_lt_pow_left h (by norm_num) (by norm_num)
    rw [labF, if_pos hcube, ← Real.rpow_natCast u 3, ← Real.rpow_mul hu]
    norm_num
  · -- u ≤ 6/29 : linear ramp
    rename_i h
    push_neg at h
    rw [labF, if_neg (by push_neg; nlinarith)]
    ring

/-- Lab `f⁻¹` after `f` is the identity (everywhere). -/
theorem labFinv_labF (t : ℝ) : labFinv (labF t) = t := by
  rw [labF]
  split
  · rename_i h
    have ht : (0 : ℝ) ≤ t := le_of_lt (lt_trans (by norm_num) h)
    have hroot : (6 : ℝ) / 29 < t ^ ((1 : ℝ) / 3) := by
      have h1 : ((6 : ℝ) / 29) = (((6 : ℝ) / 29) ^ (3 : ℝ)) ^ ((1 : ℝ) / 3) := by
        rw [← Real.rpow_mul (by norm_num)]
        norm_num
      have h2 : (((6 : ℝ) / 29) ^ (3 : ℝ)) ^ ((1 : ℝ) / 3) < t ^ ((1 : ℝ) / 3) := by
        refine Real.rpow_lt_rpow (Real.rpow_nonneg (by norm_num) _) ?_ (by norm_num)
        rw [show ((3 : ℝ)) = ((3 : ℕ) : ℝ) from by norm_num, Real.rpow_natCast]
        exact_mod_cast h
      linarith [h1 ▸ h2]
    rw [labFinv, if_pos hroot, ← Real.rpow_natCast (t ^ ((1 : ℝ) / 3)) 3,
      ← Real.rpow_mul ht]
    norm_num
  · rename_i h
    push_neg at h
    rw [labFinv, if_neg (by
      push_neg
      have h2 : t / (3 * ((6 : ℝ) / 29) ^ 2) = t * (841 / 108) := by ring
      rw [h2]
      linarith)]
    ring

/-- The explicit first-stage of `xyz_to_rgb 0.6 0.3 0` : red channel
saturates, green and blue go negative and clip to zero. -/
theorem xyz_to_rgb_example : xyz_to_rgb 0.6 0.3 0 true = ((255 : ℝ), 0, 0) := by
  have e1 : clip01 (gammaEncode
      (3.2404542 * 0.6 - 1.5371385 * 0.3 - 0.4985314 * 0 : ℝ)) = 1 := by
    have h1 : (3.2404542 * 0.6 - 1.5371385 * 0.3 - 0.4985314 * 0 : ℝ) =
        1.48313097 := by norm_num
    rw [h1]
    have hge := gammaEncode_ge_one 1.48313097 (by norm_num)
    rw [clip01, max_eq_right (by linarith), min_eq_left hge]
  have e2 : clip01 (gammaEncode
      (-0.9692660 * 0.6 + 1.8760108 * 0.3 + 0.0415560 * 0 : ℝ)) = 0 := by
    have h1 : (-0.9692660 * 0.6 + 1.8760108 * 0.3 + 0.0415560 * 0 : ℝ) =
        -0.01875636 := by norm_num
    rw [h1, gammaEncode, if_pos (by norm_num), clip01,
      max_eq_left (by norm_num), min_eq_right (by norm_num)]
  have e3 : clip01 (gammaEncode
      (0.0556434 * 0.6 - 0.2040259 * 0.3 + 1.0572252 * 0 : ℝ)) = 0 := by
    have h1 : (0.0556434 * 0.6 - 0.2040259 * 0.3 + 1.0572252 * 0 : ℝ) =
        -0.02782173 := by norm_num
    rw [h1, gammaEncode, if_pos (by norm_num), clip01,
      max_eq_left (by norm_num), min_eq_right (by norm_num)]
  simp only [xyz_to_rgb, rgbLin, if_true]
  rw [e1, e2, e3]
  have hr : ((1 : ℝ) * 255) = ((255 : ℤ) : ℝ) := by norm_num
  have h0 : ((0 : ℝ) * 255) = ((0 : ℤ) : ℝ) := by norm_num
  rw [hr, h0, round_intCast, round_intCast]
  norm_num

/-- **C9** (counterexample).  At the grid point `(X,Y,Z) = (0.6, 0.3, 0)`
(out of the sRGB gamut), `xyz_to_rgb` clips to pure red `(255, 0, 0)` and
the round-trip `rgb_to_xyz ∘ xyz_to_rgb` lands on `(0.4125, 0.2127,
0.0193)`, off by 0.1875 in X — far beyond the claimed 1e-3. -/
theorem rgb_roundtrip_counterexample :
    rgb_to_xyz (xyz_to_rgb 0.6 0.3 0 true).1 (xyz_to_rgb 0.6 0.3 0 true).2.1
      (xyz_to_rgb 0.6 0.3 0 true).2.2 = (0.4124564, 0.2126729, 0.0193339) ∧
    (1 / 1000 : ℝ) <
      |(rgb_to_xyz (xyz_to_rgb 0.6 0.3 0 true).1 (xyz_to_rgb 0.6 0.3 0 true).2.1
        (xyz_to_rgb 0.6 0.3 0 true).2.2).1 - 0.6| := by
  have hmain : rgb_to_xyz (255 : ℝ) 0 0 = (0.4124564, 0.2126729, 0.0193339) := by
    rw [rgb_to_xyz, if_pos (lt_of_lt_of_le (by norm_num) (le_max_left _ _))]
    have hg1 : invGamma ((255 : ℝ) / 255) = 1 := by
      rw [show ((255 : ℝ) / 255) = 1 from by norm_num, invGamma,
        if_neg (by norm_num), show ((1 : ℝ) + 0.055) / 1.055 = 1 from by norm_num,
        Real.one_rpow]
    have hg0 : invGamma ((0 : ℝ) / 255) = 0 := by
      rw [show ((0 : ℝ) / 255) = 0 from by norm_num, invGamma, if_pos (by norm_num)]
      norm_num
    rw [rgbDecodeNoNorm, hg1, hg0, srgbLinearToXyz]
    norm_num
  rw [xyz_to_rgb_example]
  refine ⟨hmain, ?_⟩
  rw [hmain]
  rw [show |(0.4124564 : ℝ) - 0.6| = 0.1875436 from by rw [abs_of_nonpos] <;> norm_num]
  norm_num

set_option maxHeartbeats 1000000 in
/-- **C9** (amended).  The Lab round-trip is exact (hence within 1e-3):
`xyz_to_lab (lab_to_xyz (L,a,b))` returns `(L,a,b)` for every Lab triple,
and the piecewise `f`/`f⁻¹` are mutual inverses on all of ℝ.  The RGB
round-trip `rgb_to_xyz ∘ xyz_to_rgb` is within 1e-3 only on in-gamut
triples: when each linear-sRGB component of `(X,Y,Z)` lies in `[0,1]`
(outside the encode/decode branch-mismatch sliver `(0.0031308, 0.0032)`)
and `xyz_to_rgb` is used without the 0–255 rounding; the residual error
is the exact rational mismatch `M·M⁻¹ - I` of the two rounded matrices. -/
theorem color_roundtrips :
    (∀ L a b : ℝ,
      xyz_to_lab (lab_to_xyz L a b D65_10).1 (lab_to_xyz L a b D65_10).2.1
        (lab_to_xyz L a b D65_10).2.2 D65_10 = (L, a, b)) ∧
    (∀ u : ℝ, labF (labFinv u) = u) ∧
    (∀ t : ℝ, labFinv (labF t) = t) ∧
    (∀ X Y Z : ℝ,
      0 ≤ 3.2404542 * X - 1.5371385 * Y - 0.4985314 * Z →
      3.2404542 * X - 1.5371385 * Y - 0.4985314 * Z ≤ 1 →
      (3.2404542 * X - 1.5371385 * Y - 0.4985314 * Z ≤ 0.0031308 ∨
        0.0032 ≤ 3.2404542 * X - 1.5371385 * Y - 0.4985314 * Z) →
      0 ≤ -0.9692660 * X + 1.8760108 * Y + 0.0415560 * Z →
      -0.9692660 * X + 1.8760108 * Y + 0.0415560 * Z ≤ 1 →
      (-0.9692660 * X + 1.8760108 * Y + 0.0415560 * Z ≤ 0.0031308 ∨
        0.0032 ≤ -0.9692660 * X + 1.8760108 * Y + 0.0415560 * Z) →
      0 ≤ 0.0556434 * X - 0.2040259 * Y + 1.0572252 * Z →
      0.0556434 * X - 0.2040259 * Y + 1.0572252 * Z ≤ 1 →
      (0.0556434 * X - 0.2040259 * Y + 1.0572252 * Z ≤ 0.0031308 ∨
        0.0032 ≤ 0.0556434 * X - 0.2040259 * Y + 1.0572252 * Z) →
      |(rgb_to_xyz (xyz_to_rgb X Y Z false).1 (xyz_to_rgb X Y Z false).2.1
          (xyz_to_rgb X Y Z false).2.2).1 - X| ≤ 1 / 1000 ∧
      |(rgb_to_xyz (xyz_to_rgb X Y Z false).1 (xyz_to_rgb X Y Z false).2.1
          (xyz_to_rgb X Y Z false).2.2).2.1 - Y| ≤ 1 / 1000 ∧
      |(rgb_to_xyz (xyz_to_rgb X Y Z false).1 (xyz_to_rgb X Y Z false).2.1
          (xyz_to_rgb X Y Z false).2.2).2.2 - Z| ≤ 1 / 1000) := by
  refine ⟨?_, labF_labFinv, labFinv_labF, ?_⟩
  · intro L a b
    simp only [lab_to_xyz, xyz_to_lab, D65_10]
    have h1 : labFinv ((L + 16) / 116 + a / 500) * (94.81 : ℝ) / 94.81 =
        labFinv ((L + 16) / 116 + a / 500) := by
      field_simp
    have h2 : labFinv ((L + 16) / 116) * (100.000 : ℝ) / 100.000 =
        labFinv ((L + 16) / 116) := by
      field_simp
    have h3 : labFinv ((L + 16) / 116 - b / 200) * (107.32 : ℝ) / 107.32 =
        labFinv ((L + 16) / 116 - b / 200) := by
      field_simp
    rw [h1, h2, h3, labF_labFinv, labF_labFinv, labF_labFinv]
    simp only [Prod.mk.injEq]
    refine ⟨by ring, by ring, by ring⟩
  · intro X Y Z h0r h1r hbr h0g h1g hbg h0b h1b hbb
    have hr := invGamma_gammaEncode _ h0r h1r hbr
    have hg := invGamma_gammaEncode _ h0g h1g hbg
    have hb := invGamma_gammaEncode _ h0b h1b hbb
    have hxrgb : xyz_to_rgb X Y Z false =
        (clip01 (gammaEncode (3.2404542 * X - 1.5371385 * Y - 0.4985314 * Z)),
         clip01 (gammaEncode (-0.9692660 * X + 1.8760108 * Y + 0.0415560 * Z)),
         clip01 (gammaEncode (0.0556434 * X - 0.2040259 * Y + 1.0572252 * Z))) := by
      simp only [xyz_to_rgb, rgbLin, Bool.false_eq_true, if_false]
    have hres : rgb_to_xyz (xyz_to_rgb X Y Z false).1 (xyz_to_rgb X Y Z false).2.1
        (xyz_to_rgb X Y Z false).2.2 =
        srgbLinearToXyz (3.2404542 * X - 1.5371385 * Y - 0.4985314 * Z)
          (-0.9692660 * X + 1.8760108 * Y + 0.0415560 * Z)
          (0.0556434 * X - 0.2040259 * Y + 1.0572252 * Z) := by
      rw [hxrgb, rgb_to_xyz,
        if_neg (not_lt.mpr (max_le (clip01_le_one _)
          (max_le (clip01_le_one _) (clip01_le_one _)))),
        rgbDecodeNoNorm, hr, hg, hb]
    rw [hres]
    simp only [srgbLinearToXyz]
    have hXid : (24146118689175737189 : ℝ) * X =
        9959221967662800000 * (3.2404542 * X - 1.5371385 * Y - 0.4985314 * Z) +
        8634074378267300000 * (-0.9692660 * X + 1.8760108 * Y + 0.0415560 * Z) +
        4356864815165600000 * (0.0556434 * X - 0.2040259 * Y + 1.0572252 * Z) := by
      ring
    have hYid : (24146118689175737189 : ℝ) * Y =
        5135223789168000000 * (3.2404542 * X - 1.5371385 * Y - 0.4985314 * Z) +
        17268149108943000000 * (-0.9692660 * X + 1.8760108 * Y + 0.0415560 * Z) +
        1742746106086000000 * (0.0556434 * X - 0.2040259 * Y + 1.0572252 * Z) := by
      ring
    have hZid : (24146118689175737189 : ℝ) * Z =
        466838743203400000 * (3.2404542 * X - 1.5371385 * Y - 0.4985314 * Z) +
        2878024860764400000 * (-0.9692660 * X + 1.8760108 * Y + 0.0415560 * Z) +
        22946154953821800000 * (0.0556434 * X - 0.2040259 * Y + 1.0572252 * Z) := by
      ring
    have hX0 : 0 ≤ X := by
      linarith only [hXid, h0r, h0g, h0b]
    have hXub : X ≤ 11 / 10 := by
      linarith only [hXid, h1r, h1g, h1b]
    have hY0 : 0 ≤ Y := by
      linarith only [hYid, h0r, h0g, h0b]
    have hYub : Y ≤ 11 / 10 := by
      linarith only [hYid, h1r, h1g, h1b]
    have hZ0 : 0 ≤ Z := by
      linarith only [hZid, h0r, h0g, h0b]
    have hZub : Z ≤ 11 / 10 := by
      linarith only [hZid, h1r, h1g, h1b]
    have hdX : 0.4124564 * (3.2404542 * X - 1.5371385 * Y - 0.4985314 * Z) +
        0.3575761 * (-0.9692660 * X + 1.8760108 * Y + 0.0415560 * Z) +
        0.1804375 * (0.0556434 * X - 0.2040259 * Y + 1.0572252 * Z) - X =
        -(6322911 / 50000000000000) * X + (9007923 / 100000000000000) * Y +
          (947641 / 25000000000000) * Z := by
      ring
    have hdY : 0.2126729 * (3.2404542 * X - 1.5371385 * Y - 0.4985314 * Z) +
        0.7151522 * (-0.9692660 * X + 1.8760108 * Y + 0.0415560 * Z) +
        0.0721750 * (0.0556434 * X - 0.2040259 * Y + 1.0572252 * Z) - Y =
        (7107049 / 50000000000000) * X - (2098539 / 100000000000000) * Y -
          (1247293 / 50000000000000) * Z := by
      ring
    have hdZ : 0.0193339 * (3.2404542 * X - 1.5371385 * Y - 0.4985314 * Z) +
        0.1191920 * (-0.9692660 * X + 1.8760108 * Y + 0.0415560 * Z) +
        0.9503041 * (0.0556434 * X - 0.2040259 * Y + 1.0572252 * Z) - Z =
        (388583 / 25000000000000) * X - (2602387 / 50000000000000) * Y +
          (1435043 / 50000000000000) * Z := by
      ring
    refine ⟨?_, ?_, ?_⟩
    · rw [abs_le]
      constructor <;> linarith only [hdX, hX0, hXub, hY0, hYub, hZ0, hZub]
    · rw [abs_le]
      constructor <;> linarith only [hdY, hX0, hXub, hY0, hYub, hZ0, hZub]
    · rw [abs_le]
      constructor <;> linarith only [hdZ, hX0, hXub, hY0, hYub, hZ0, hZub]

/-- Witness for C9 (amended): Lab round-trip at `(50, 10, -20)`, the `f`
inverses at sample points, and the in-gamut RGB round-trip at
`(0.2, 0.2, 0.2)` (whose linear components all lie in `[0.0032, 1]`). -/
theorem color_roundtrips_witness :
    xyz_to_lab (lab_to_xyz 50 10 (-20) D65_10).1 (lab_to_xyz 50 10 (-20) D65_10).2.1
      (lab_to_xyz 50 10 (-20) D65_10).2.2 D65_10 = (50, 10, -20) ∧
    labF (labFinv 0.5) = 0.5 ∧
    labFinv (labF 0.004) = 0.004 ∧
    (|(rgb_to_xyz (xyz_to_rgb 0.2 0.2 0.2 false).1 (xyz_to_rgb 0.2 0.2 0.2 false).2.1
        (xyz_to_rgb 0.2 0.2 0.2 false).2.2).1 - 0.2| ≤ 1 / 1000 ∧
     |(rgb_to_xyz (xyz_to_rgb 0.2 0.2 0.2 false).1 (xyz_to_rgb 0.2 0.2 0.2 false).2.1
        (xyz_to_rgb 0.2 0.2 0.2 false).2.2).2.1 - 0.2| ≤ 1 / 1000 ∧
     |(rgb_to_xyz (xyz_to_rgb 0.2 0.2 0.2 false).1 (xyz_to_rgb 0.2 0.2 0.2 false).2.1
        (xyz_to_rgb 0.2 0.2 0.2 false).2.2).2.2 - 0.2| ≤ 1 / 1000) :=
  ⟨color_roundtrips.1 50 10 (-20),
   color_roundtrips.2.1 0.5,
   color_roundtrips.2.2.1 0.004,
   color_roundtrips.2.2.2 0.2 0.2 0.2 (by norm_num) (by norm_num)
     (by right; norm_num) (by norm_num) (by norm_num) (by right; norm_num)
     (by norm_num) (by norm_num) (by right; norm_num)⟩
